import Mathlib

/-!
Verification development for the wireless-debugging server core
(`server/parsing_lib/log_parser.py` and `server/controller/websocket.py`).

Strings are modelled as `List Char` (`Str`).  Python `datetime` values are
modelled by the record `PyDateTime`; `datetime.now()` is an explicit
environment input.  Fallible Python code (raising `IndexError`,
`AttributeError`, `ValueError`, `KeyError`) is modelled with `Except`.
-/

abbrev Str := List Char

instance {ε α : Type} [DecidableEq ε] [DecidableEq α] : DecidableEq (Except ε α) :=
  fun x y =>
    match x, y with
    | .ok a, .ok b =>
      if h : a = b then .isTrue (by rw [h]) else .isFalse (fun hh => by cases hh; exact h rfl)
    | .error a, .error b =>
      if h : a = b then .isTrue (by rw [h]) else .isFalse (fun hh => by cases hh; exact h rfl)
    | .ok _, .error _ => .isFalse (fun hh => by cases hh)
    | .error _, .ok _ => .isFalse (fun hh => by cases hh)

/-- First result of `f` over a list, in order: the backtracking search
primitive used to model the leftmost/greedy/lazy choices of `re.search`. -/
def firstSome (f : α → Option β) : List α → Option β
  | [] => none
  | a :: as =>
    match f a with
    | some b => some b
    | none => firstSome f as

/-- All splits `(l.take i, l.drop i)` of a list, shortest first part first. -/
def splitsAsc (l : Str) : List (Str × Str) :=
  (List.range (l.length + 1)).map (fun i => (l.take i, l.drop i))

/-- All splits of a list, longest first part first (greedy order). -/
def splitsDesc (l : Str) : List (Str × Str) :=
  (splitsAsc l).reverse

/-- Holds iff no character of `s` is a newline (the characters `.` can match). -/
def noNl (s : Str) : Bool := s.all (fun c => c != '\n')

/-- Python `datetime` values, to the precision this code uses. -/
structure PyDateTime where
  year : Nat
  month : Nat
  day : Nat
  hour : Nat
  minute : Nat
  second : Nat
  microsecond : Nat
deriving DecidableEq

/-- Decimal digits of a natural number (model of Python `str(n)`). -/
def natToCharsAux : Nat → Nat → Str → Str
  | 0, _, acc => acc
  | fuel + 1, n, acc =>
    if n < 10 then Char.ofNat (48 + n) :: acc
    else natToCharsAux fuel (n / 10) (Char.ofNat (48 + n % 10) :: acc)

def natToChars (n : Nat) : Str := natToCharsAux (n + 1) n []

/-- Value of a list of decimal digit characters. -/
def digitsToNat (l : Str) : Nat := l.foldl (fun n c => n * 10 + (c.toNat - 48)) 0

/-- Up to `max` leading decimal digits of `l`, greedily, with the rest. -/
def takeDigits : Nat → Str → Str × Str
  | 0, l => ([], l)
  | _ + 1, [] => ([], [])
  | m + 1, c :: rest =>
    if c.isDigit then
      let p := takeDigits m rest
      (c :: p.1, p.2)
    else ([], c :: rest)

/-- At least one and at most `maxD` leading digits, or failure (model of the
regex fragments used by `_strptime`). -/
def readDigits (maxD : Nat) (s : Str) : Option (Str × Str) :=
  let p := takeDigits maxD s
  if p.1 = [] then none else some p

/-- Consume one expected literal character. -/
def expectChar (c : Char) : Str → Option Str
  | x :: r => if x = c then some r else none
  | [] => none

def isLeapYear (y : Nat) : Bool := y % 4 = 0 && (y % 100 != 0 || y % 400 = 0)

def daysInMonth (y m : Nat) : Nat :=
  if m = 2 then (if isLeapYear y then 29 else 28)
  else if m = 4 ∨ m = 6 ∨ m = 9 ∨ m = 11 then 30
  else 31

/-- One numeric field of at most `maxD` digits followed by the literal
separator `c`. -/
def readField (maxD : Nat) (c : Char) (s : Str) : Option (Nat × Str) :=
  match readDigits maxD s with
  | none => none
  | some p =>
    match expectChar c p.2 with
    | none => none
    | some r => some (digitsToNat p.1, r)

/-- The `%f` field: one to six digits ending the string, right-padded to six
digits (microseconds). -/
def readFraction (s : Str) : Option Nat :=
  match readDigits 6 s with
  | none => none
  | some p =>
    if p.2 = [] then some (digitsToNat (p.1 ++ List.replicate (6 - p.1.length) '0'))
    else none

/-- Range checks performed by `datetime` construction. -/
def validDateTime (d : PyDateTime) : Bool :=
  1 ≤ d.month && d.month ≤ 12 && 1 ≤ d.day && d.day ≤ daysInMonth d.year d.month &&
    d.hour ≤ 23 && d.minute ≤ 59 && d.second ≤ 59

/-- Model of `datetime.strptime(s, '%Y-%m-%d %H:%M:%S.%f')`: `none` models the
`ValueError` raised on a mismatch, on out-of-range fields, or on trailing
unconverted data. -/
def strptime (s : Str) : Option PyDateTime :=
  match readField 4 '-' s with
  | none => none
  | some (y, r) =>
  match readField 2 '-' r with
  | none => none
  | some (mo, r) =>
  match readField 2 ' ' r with
  | none => none
  | some (dd, r) =>
  match readField 2 ':' r with
  | none => none
  | some (hh, r) =>
  match readField 2 ':' r with
  | none => none
  | some (mi, r) =>
  match readField 2 '.' r with
  | none => none
  | some (ss, r) =>
  match readFraction r with
  | none => none
  | some f =>
    let d : PyDateTime := ⟨y, mo, dd, hh, mi, ss, f⟩
    if validDateTime d then some d else none

/-- Python whitespace stripped by `str.strip()`. -/
def isPySpace (c : Char) : Bool :=
  c == ' ' || c == '\t' || c == '\n' || c == '\r' || c == '\x0b' || c == '\x0c'

def pyStrip (s : Str) : Str :=
  ((s.dropWhile isPySpace).reverse.dropWhile isPySpace).reverse

/-- The capture groups of the log-line regex
`(.*) (\d*) (\d*) (.) (.*?): ((?:.*\n*)*)`. -/
structure ReGroups where
  g1 : Str
  g2 : Str
  g3 : Str
  g4 : Char
  g5 : Str
  g6 : Str
deriving DecidableEq

/-- Matches `(.*?): (rest)`: the lazy tag capture, then the literal `: `,
then group 6 (`((?:.*\n*)*)` matches everything remaining). -/
def matchTag (g1 g2 g3 : Str) (g4 : Char) (l : Str) : Option ReGroups :=
  firstSome (fun p =>
    if noNl p.1 then
      match p.2 with
      | ':' :: ' ' :: r => some ⟨g1, g2, g3, g4, p.1, r⟩
      | _ => none
    else none) (splitsAsc l)

/-- Matches `(.) ` (single level character, then a space). -/
def matchLevel (g1 g2 g3 : Str) (l : Str) : Option ReGroups :=
  match l with
  | c :: ' ' :: r => if c != '\n' then matchTag g1 g2 g3 c r else none
  | _ => none

/-- Matches `(\d*) ` for group 3, greedily. -/
def matchTid (g1 g2 : Str) (l : Str) : Option ReGroups :=
  firstSome (fun p =>
    if p.1.all Char.isDigit then
      match p.2 with
      | ' ' :: r => matchLevel g1 g2 p.1 r
      | _ => none
    else none) (splitsDesc l)

/-- Matches `(\d*) ` for group 2, greedily. -/
def matchPid (g1 : Str) (l : Str) : Option ReGroups :=
  firstSome (fun p =>
    if p.1.all Char.isDigit then
      match p.2 with
      | ' ' :: r => matchTid g1 p.1 r
      | _ => none
    else none) (splitsDesc l)

/-- Model of `re.search('(.*) (\d*) (\d*) (.) (.*?): ((?:.*\n*)*)', line)`.
Because the pattern starts with `(.*)`, a match anywhere yields a match at
position 0, so only position 0 is tried; group 1 is greedy (longest first),
the digit groups are greedy, group 5 is lazy (shortest first).  `\d` is
modelled as the ASCII digits the logs use. -/
def reMatch (line : Str) : Option ReGroups :=
  firstSome (fun p =>
    if noNl p.1 then
      match p.2 with
      | ' ' :: r => matchPid p.1 r
      | _ => none
    else none) (splitsDesc line)

/-- The errors `LogParser` can raise: `raw_data[0]` on an empty list
(`IndexError`), `parsed_log.group` on a failed search (`AttributeError`),
`datetime.strptime` (`ValueError`), and `log_types[...]` (`KeyError`). -/
inductive PErr
  | indexError
  | matchError
  | timeError
  | levelError
deriving DecidableEq

/-- The dict returned by `LogParser.parse_raw_log`. -/
structure RawLog where
  time : PyDateTime
  processId : Str
  threadId : Str
  logType : Str
  tag : Str
  text : Str
deriving DecidableEq

/-- The `log_types` dict of `parse_raw_log`; `none` models the `KeyError`
raised by indexing with an unmapped character. -/
def log_types (c : Char) : Option Str :=
  if c = 'I' then some ("Info".data)
  else if c = 'W' then some ("Warning".data)
  else if c = 'V' then some ("Verbose".data)
  else if c = 'E' then some ("Error".data)
  else if c = 'D' then some ("Debug".data)
  else if c = 'A' then some ("WTF".data)
  else none

/-- Model of `LogParser.parse_raw_log`: regex search, then
`'%s-%s' % (str(datetime.now().year), group(1).strip())` fed to `strptime`,
then the `log_types` lookup.  `now` is the wall clock at the call. -/
def parse_raw_log (now : PyDateTime) (log_data : Str) : Except PErr RawLog :=
  match reMatch log_data with
  | none => .error .matchError
  | some g =>
    match strptime (natToChars now.year ++ '-' :: pyStrip g.g1) with
    | none => .error .timeError
    | some t =>
      match log_types g.g4 with
      | none => .error .levelError
      | some ty => .ok ⟨t, g.g2, g.g3, ty, g.g5, g.g6⟩

/-- The dict built by `LogParser.parse_entries` (no processId / threadId). -/
structure Entry where
  time : PyDateTime
  logType : Str
  tag : Str
  text : Str
deriving DecidableEq

def parse_entries (log_entry : RawLog) : Entry :=
  ⟨log_entry.time, log_entry.logType, log_entry.tag, log_entry.text⟩

/-- The marker pattern `'beginning of /dev/log/'`; `re.search` with this
all-literal pattern is substring containment. -/
def markerChars : Str := "beginning of /dev/log/".data

def containsMarker (line : Str) : Bool := decide (markerChars <:+: line)

/-- Model of Python `str.splitlines()` on newline-separated text: a trailing
newline produces no final empty line, and `''.splitlines() == []`. -/
def pySplitlines : Str → List Str
  | [] => []
  | c :: rest =>
    if c = '\n' then [] :: pySplitlines rest
    else
      match pySplitlines rest with
      | [] => [[c]]
      | line :: lines => (c :: line) :: lines

/-- Models `log_entries[-1]['text'] += '\n %s' % current_log['text']`: append
newline-space-text to the last emitted entry. -/
def appendToLastText : List Entry → Str → List Entry
  | [], _ => []
  | [e], t => [{ e with text := e.text ++ '\n' :: ' ' :: t }]
  | e :: es, t => e :: appendToLastText es t

/-- The `for line in raw_data[1:]` loop of `LogParser.parse`: skip marker
lines, parse each remaining line, compare the five header fields against the
previous raw log (`old_log`, advanced every iteration), and either append a
new entry or merge into the last one. -/
def parseLoop (now : PyDateTime) :
    List Str → RawLog → List Entry → Except PErr (List Entry)
  | [], _, acc => .ok acc
  | line :: rest, old_log, acc =>
    if containsMarker line then parseLoop now rest old_log acc
    else
      match parse_raw_log now line with
      | .error e => .error e
      | .ok current_log =>
        if current_log.time ≠ old_log.time ∨
            current_log.processId ≠ old_log.processId ∨
            current_log.threadId ≠ old_log.threadId ∨
            current_log.logType ≠ old_log.logType ∨
            current_log.tag ≠ old_log.tag then
          parseLoop now rest current_log (acc ++ [parse_entries current_log])
        else
          parseLoop now rest current_log (appendToLastText acc current_log.text)

/-- The dict returned by `LogParser.parse`. -/
structure ParseResult where
  messageType : Str
  osType : Str
  logEntries : List Entry
deriving DecidableEq

namespace LogParser

/-- Model of `LogParser.parse`: split `rawLogData` into lines, strip leading
marker lines (`IndexError` if none are left, including on empty input), parse
the first line, then run the merge loop over the remaining lines. -/
def parse (now : PyDateTime) (rawLogData : Str) : Except PErr ParseResult :=
  match (pySplitlines rawLogData).dropWhile containsMarker with
  | [] => .error .indexError
  | first :: rest =>
    match parse_raw_log now first with
    | .error e => .error e
    | .ok old_log =>
      match parseLoop now rest old_log [parse_entries old_log] with
      | .error e => .error e
      | .ok entries => .ok ⟨"logData".data, "Android".data, entries⟩

end LogParser

example :
    LogParser.parse ⟨2026, 5, 5, 0, 0, 0, 0⟩
      ("01-02 03:04:05.6 1 2 I t: x".data) =
    .ok ⟨"logData".data, "Android".data,
      [⟨⟨2026, 1, 2, 3, 4, 5, 600000⟩, "Info".data, "t".data, "x".data⟩]⟩ := by
  decide

/-!
Embedding of `server/controller/websocket.py`.

A WebSocket connection is identified by a `Conn` (reference identity).
`_web_ui_ws_connections` is the `Registry`: an insertion-ordered mapping from
API key to list of connections (Python dicts preserve insertion order).
Messages and the per-connection `websocket_metadata` dict are modelled as
insertion-ordered association lists with string values (`Dict`).

External collaborators are explicit inputs in `Env`:
`controller.user_management_interface.find_associated_websockets` is
`Env.lookup` (called with the key and the current registry);
`str(datetime.now())` stamped by `start_session` is `Env.nowStr`.

The two source files do not fit together at `log_dump`: `websocket.py`
lines 106-107 call `LogParser.parse(message['rawLogData'],
metadata['osType'])` with two arguments, but the `LogParser` under `src/`
(`log_parser.py` line 13) defines `parse(message)` with one parameter, so
once both fields are read Python raises `TypeError` before any parsing.
The model raises `HErr.typeError` at exactly that point; the rest of the
handler (`store_logs`, `convert_to_html` — which has no definition under
`src/` — and the fan-out) is unreachable.
-/

abbrev Conn := Nat

abbrev Dict := List (Str × Str)

/-- Python `d[k]` as an option: first binding wins (keys are unique in Python). -/
def dictGet? : Dict → Str → Option Str
  | [], _ => none
  | p :: rest, k => if p.1 = k then some p.2 else dictGet? rest k

/-- Python `d.get(k, dflt)`. -/
def dictGetD (d : Dict) (k dflt : Str) : Str := (dictGet? d k).getD dflt

/-- Python `d[k] = v`: overwrite in place, or append a new binding at the end. -/
def dictSet : Dict → Str → Str → Dict
  | [], k, v => [(k, v)]
  | p :: rest, k, v => if p.1 = k then (k, v) :: rest else p :: dictSet rest k v

/-- The `_web_ui_ws_connections` dict: API key to list of web connections. -/
abbrev Registry := List (Str × List Conn)

def regFind? : Registry → Str → Option (List Conn)
  | [], _ => none
  | p :: rest, k => if p.1 = k then some p.2 else regFind? rest k

/-- Models `_web_ui_ws_connections.setdefault(api_key, []).append(websocket)`:
append to the key's list, creating the key at the end if absent. -/
def regAppend : Registry → Str → Conn → Registry
  | [], k, c => [(k, [c])]
  | p :: rest, k, c =>
    if p.1 = k then (p.1, p.2 ++ [c]) :: rest else p :: regAppend rest k c

/-- The fallback scan of `handle_websocket`: remove the first occurrence of
`ws` from the first key's list that contains it, then stop. -/
def scanRemove (ws : Conn) : Registry → Registry
  | [] => []
  | p :: rest =>
    if ws ∈ p.2 then (p.1, p.2.erase ws) :: rest else p :: scanRemove ws rest

/-- The final compaction loop: delete every key whose list is empty. -/
def regCompact (reg : Registry) : Registry := reg.filter (fun p => !p.2.isEmpty)

/-- The post-loop cleanup of `handle_websocket` (lines 54-69): remove `ws`
from the metadata API key's list if that key is known, present and holds
`ws` (`list.remove` deletes the first occurrence), otherwise scan all keys
and remove the first match; then delete now-empty keys. -/
def memKey (reg : Registry) (k : Str) (ws : Conn) : Bool :=
  match regFind? reg k with
  | some cs => decide (ws ∈ cs)
  | none => false

/-- The removal phase of the cleanup: the `if`'s condition is
`ws_api_key and ws_api_key in _web_ui_ws_connections and websocket in
_web_ui_ws_connections[ws_api_key]` (a `''` key is falsy); on the known-key
path only that key's list loses its first `ws`; otherwise the fallback scan
removes the first occurrence found, stopping at the first key. -/
def removePhase (ws : Conn) (key : Str) (reg : Registry) : Registry :=
  if decide (key ≠ []) && memKey reg key ws then
    reg.map (fun p => if p.1 = key then (p.1, p.2.erase ws) else p)
  else scanRemove ws reg

def cleanup (ws : Conn) (md : Dict) (reg : Registry) : Registry :=
  regCompact (removePhase ws (dictGetD md ("apiKey".data) []) reg)

/-- Outbound messages: the `logData` dict `log_dump` builds at lines
117-121 (unreachable behind the handler's `TypeError`), and the verbatim
re-serialized message sent by `device_metrics`. -/
inductive OutMsg
  | logData (osType : Str) (logEntries : List Str)
  | verbatim (m : Dict)
deriving DecidableEq

/-- Un-caught Python exceptions a handler can raise: `KeyError` from a
missing dict field, and the `TypeError` from calling the one-parameter
`LogParser.parse(message)` with two arguments. -/
inductive HErr
  | keyError (k : Str)
  | typeError
deriving DecidableEq

/-- One call to `controller.datastore_interface.store_logs`. -/
structure StoreCall where
  apiKey : Str
  deviceName : Str
  appName : Str
  startTime : Str
  osType : Str
  entries : List Entry
deriving DecidableEq

/-- One call to `controller.datastore_interface.set_session_over`. -/
structure SessionOverCall where
  apiKey : Str
  deviceName : Str
  appName : Str
  startTime : Str
deriving DecidableEq

/-- One call to `controller.datastore_interface.add_device_app`. -/
structure DeviceAppCall where
  apiKey : Str
  deviceName : Str
  appName : Str
deriving DecidableEq

/-- The state a connection's receive loop reads and writes: its metadata
dict, the shared registry, and the calls made to external collaborators
(`store_logs`, `set_session_over`, `add_device_app`, `connection.send`). -/
structure LoopState where
  metadata : Dict
  registry : Registry
  stored : List StoreCall
  sessionsOver : List SessionOverCall
  deviceApps : List DeviceAppCall
  sent : List (Conn × OutMsg)
deriving DecidableEq

/-- The external collaborators and environment inputs of the controller. -/
structure Env where
  nowStr : Str
  lookup : Str → Registry → List Conn

/-- Handler `start_session`: copy every message field into the metadata, then stamp
`startTime` with the current wall-clock time. -/
def start_session (env : Env) (message : Dict) (st : LoopState) : LoopState :=
  let md := message.foldl (fun d p => dictSet d p.1 p.2) st.metadata
  { st with metadata := dictSet md ("startTime".data) env.nowStr }

/-- Handler `log_dump`: evaluate the arguments of the call at lines
106-107 — `message['rawLogData']` first, then `metadata['osType']`, either
raising `KeyError` — and then the call itself raises `TypeError`: the
`LogParser.parse` under `src/` takes one parameter, not two.  The rest of
the handler (parsing, `store_logs`, rendering, fan-out) is dead code. -/
def log_dump (env : Env) (message : Dict) (st : LoopState) :
    Except HErr LoopState :=
  match dictGet? message ("rawLogData".data) with
  | none => .error (.keyError ("rawLogData".data))
  | some raw =>
  match dictGet? st.metadata ("osType".data) with
  | none => .error (.keyError ("osType".data))
  | some osType => .error .typeError

/-- Handler `end_session`: `set_session_over` then `add_device_app`; the metadata
fields are read (and can raise) before either call is made. -/
def end_session (st : LoopState) : Except HErr LoopState :=
  let api_key := dictGetD st.metadata ("apiKey".data) []
  match dictGet? st.metadata ("deviceName".data) with
  | none => .error (.keyError ("deviceName".data))
  | some dev =>
  match dictGet? st.metadata ("appName".data) with
  | none => .error (.keyError ("appName".data))
  | some app =>
  match dictGet? st.metadata ("startTime".data) with
  | none => .error (.keyError ("startTime".data))
  | some startT =>
    .ok { st with
      sessionsOver := st.sessionsOver ++ [⟨api_key, dev, app, startT⟩],
      deviceApps := st.deviceApps ++ [⟨api_key, dev, app⟩] }

/-- Handler `associate_user`: append this connection under `message.get('apiKey', '')`. -/
def associate_user (message : Dict) (ws : Conn) (st : LoopState) : LoopState :=
  { st with registry := regAppend st.registry (dictGetD message ("apiKey".data) []) ws }

/-- Handler `device_metrics`: fan the raw message out verbatim to the lookup of
`metadata.get('apiKey', '')`.  Never raises. -/
def device_metrics (env : Env) (message : Dict) (st : LoopState) : LoopState :=
  { st with sent := st.sent ++
      ((env.lookup (dictGetD st.metadata ("apiKey".data) []) st.registry).map
        (fun c => (c, OutMsg.verbatim message))) }

/-- One iteration body of the receive loop: read `messageType` with
`.get('messageType', None)` and dispatch through `_ws_routes`; an
unrecognized (or absent) type is logged and skipped. -/
def dispatch (env : Env) (message : Dict) (ws : Conn) (st : LoopState) :
    Except HErr LoopState :=
  match dictGet? message ("messageType".data) with
  | none => .ok st
  | some mt =>
    if mt = "startSession".data then .ok (start_session env message st)
    else if mt = "logDump".data then log_dump env message st
    else if mt = "endSession".data then end_session st
    else if mt = "associateUser".data then .ok (associate_user message ws st)
    else if mt = "deviceMetrics".data then .ok (device_metrics env message st)
    else .ok st

/-- What `websocket.receive()` yields on one loop iteration. -/
inductive LoopEvent
  | recvNone
  | recvWsErr
  | recvMsg (m : Dict)
deriving DecidableEq

/-- How the `while not websocket.closed` loop ended. -/
inductive LoopOutcome
  | finished
  | broke
  | raised (e : HErr)
deriving DecidableEq

/-- The receive loop: `None` reads are skipped, a `WebSocketError` breaks
out (the `except` clause), and any other handler exception propagates,
abandoning the rest of the event stream. -/
def runLoop (env : Env) (ws : Conn) :
    List LoopEvent → LoopState → LoopState × LoopOutcome
  | [], st => (st, .finished)
  | .recvNone :: evs, st => runLoop env ws evs st
  | .recvWsErr :: _, st => (st, .broke)
  | .recvMsg m :: evs, st =>
    match dispatch env m ws st with
    | .ok st' => runLoop env ws evs st'
    | .error e => (st, .raised e)

/-- The observable result of one `handle_websocket` call. -/
structure WsResult where
  state : LoopState
  error : Option HErr
  cleanupRan : Bool
deriving DecidableEq

/-- Fresh per-connection state over the shared registry. -/
def initState (reg : Registry) : LoopState := ⟨[], reg, [], [], [], []⟩

/-- Model of `handle_websocket`: run the receive loop with empty metadata;
the cleanup block (lines 54-69) is reached only when the loop exits
normally or via `WebSocketError` — it is not in a `finally`, so an
exception propagating out of a handler skips it. -/
def handle_websocket (env : Env) (ws : Conn) (events : List LoopEvent)
    (reg : Registry) : WsResult :=
  match runLoop env ws events (initState reg) with
  | (st, .raised e) => ⟨st, some e, false⟩
  | (st, _) =>
    ⟨{ st with registry := cleanup ws st.metadata st.registry }, none, true⟩

/-! ### Supporting lemmas -/

theorem parse_raw_log_year_eq {now now' : PyDateTime} (h : now.year = now'.year)
    (l : Str) : parse_raw_log now l = parse_raw_log now' l := by
  unfold parse_raw_log
  rw [h]

theorem parseLoop_year_eq {now now' : PyDateTime} (h : now.year = now'.year) :
    ∀ (lines : List Str) (old : RawLog) (acc : List Entry),
      parseLoop now lines old acc = parseLoop now' lines old acc := by
  intro lines
  induction lines with
  | nil => intro old acc; rfl
  | cons l rest ih =>
    intro old acc
    simp only [parseLoop, parse_raw_log_year_eq h]
    split
    · exact ih old acc
    · cases parse_raw_log now' l with
      | error e => rfl
      | ok cur =>
        simp only []
        split
        · exact ih cur _
        · exact ih cur _

theorem firstSome_eq_some {α β : Type} {f : α → Option β} :
    ∀ {l : List α} {b : β}, firstSome f l = some b → ∃ a ∈ l, f a = some b := by
  intro l
  induction l with
  | nil => intro b h; simp [firstSome] at h
  | cons a as ih =>
    intro b h
    simp only [firstSome] at h
    cases hfa : f a with
    | some b' =>
      rw [hfa] at h
      exact ⟨a, List.mem_cons_self a as, by rw [hfa]; exact h⟩
    | none =>
      rw [hfa] at h
      obtain ⟨x, hx, hfx⟩ := ih h
      exact ⟨x, List.mem_cons_of_mem a hx, hfx⟩

theorem splitsAsc_mem {l : Str} {p : Str × Str} (h : p ∈ splitsAsc l) :
    p.1 ++ p.2 = l := by
  unfold splitsAsc at h
  obtain ⟨i, _, rfl⟩ := List.mem_map.mp h
  exact List.take_append_drop i l

theorem splitsDesc_mem {l : Str} {p : Str × Str} (h : p ∈ splitsDesc l) :
    p.1 ++ p.2 = l :=
  splitsAsc_mem (List.mem_reverse.mp h)

theorem matchTag_g6_sfx {g1 g2 g3 : Str} {g4 : Char} {l : Str} {g : ReGroups}
    (h : matchTag g1 g2 g3 g4 l = some g) : g.g6 <:+ l := by
  obtain ⟨p, hp, hfp⟩ := firstSome_eq_some h
  have hsplit : p.1 ++ p.2 = l := splitsAsc_mem hp
  split at hfp
  · split at hfp
    · next r heq =>
      cases hfp
      refine List.IsSuffix.trans ?_ ⟨p.1, hsplit⟩
      rw [heq]
      exact List.suffix_append [':', ' '] r
    · cases hfp
  · cases hfp

theorem matchLevel_g6_sfx {g1 g2 g3 : Str} {l : Str} {g : ReGroups}
    (h : matchLevel g1 g2 g3 l = some g) : g.g6 <:+ l := by
  unfold matchLevel at h
  split at h
  · next c r =>
    split at h
    · exact List.IsSuffix.trans (matchTag_g6_sfx h) (List.suffix_append [c, ' '] r)
    · cases h
  · cases h

theorem matchTid_g6_sfx {g1 g2 : Str} {l : Str} {g : ReGroups}
    (h : matchTid g1 g2 l = some g) : g.g6 <:+ l := by
  obtain ⟨p, hp, hfp⟩ := firstSome_eq_some h
  have hsplit : p.1 ++ p.2 = l := splitsDesc_mem hp
  split at hfp
  · split at hfp
    · next r heq =>
      refine List.IsSuffix.trans ?_ ⟨p.1, hsplit⟩
      rw [heq]
      exact List.IsSuffix.trans (matchLevel_g6_sfx hfp) (List.suffix_append [' '] r)
    · cases hfp
  · cases hfp

theorem matchPid_g6_sfx {g1 : Str} {l : Str} {g : ReGroups}
    (h : matchPid g1 l = some g) : g.g6 <:+ l := by
  obtain ⟨p, hp, hfp⟩ := firstSome_eq_some h
  have hsplit : p.1 ++ p.2 = l := splitsDesc_mem hp
  split at hfp
  · split at hfp
    · next r heq =>
      refine List.IsSuffix.trans ?_ ⟨p.1, hsplit⟩
      rw [heq]
      exact List.IsSuffix.trans (matchTid_g6_sfx hfp) (List.suffix_append [' '] r)
    · cases hfp
  · cases hfp

theorem reMatch_g6_sfx {line : Str} {g : ReGroups}
    (h : reMatch line = some g) : g.g6 <:+ line := by
  obtain ⟨p, hp, hfp⟩ := firstSome_eq_some h
  have hsplit : p.1 ++ p.2 = line := splitsDesc_mem hp
  split at hfp
  · split at hfp
    · next r heq =>
      refine List.IsSuffix.trans ?_ ⟨p.1, hsplit⟩
      rw [heq]
      exact List.IsSuffix.trans (matchPid_g6_sfx hfp) (List.suffix_append [' '] r)
    · cases hfp
  · cases hfp

theorem parse_raw_log_text_sfx {now : PyDateTime} {l : Str} {r : RawLog}
    (h : parse_raw_log now l = .ok r) : r.text <:+ l := by
  unfold parse_raw_log at h
  split at h
  · cases h
  · next g heq =>
    split at h
    · cases h
    · split at h
      · cases h
      · cases h
        exact reMatch_g6_sfx heq

theorem pref_append_cons {m xs ys : Str} {c : Char}
    (h : m <+: xs ++ c :: ys) (hc : c ∉ m) : m <+: xs := by
  induction xs generalizing m with
  | nil =>
    cases m with
    | nil => exact List.nil_prefix
    | cons d m' =>
      simp only [List.nil_append] at h
      rw [List.cons_prefix_cons] at h
      exact absurd (List.mem_cons.mpr (Or.inl h.1.symm)) hc
  | cons x xs' ih =>
    cases m with
    | nil => exact List.nil_prefix
    | cons d m' =>
      simp only [List.cons_append] at h
      rw [List.cons_prefix_cons] at h ⊢
      obtain ⟨hdx, h'⟩ := h
      exact ⟨hdx, ih h' (fun hm => hc (List.mem_cons_of_mem d hm))⟩

theorem inf_append_cons {m xs ys : Str} {c : Char}
    (h : m <:+: xs ++ c :: ys) (hc : c ∉ m) : m <:+: xs ∨ m <:+: ys := by
  induction xs with
  | nil =>
    simp only [List.nil_append] at h
    rcases List.infix_cons_iff.mp h with hpre | hinf
    · cases m with
      | nil => exact Or.inr List.nil_infix
      | cons d m' =>
        rw [List.cons_prefix_cons] at hpre
        exact absurd (List.mem_cons.mpr (Or.inl hpre.1.symm)) hc
    · exact Or.inr hinf
  | cons x xs' ih =>
    simp only [List.cons_append] at h
    rcases List.infix_cons_iff.mp h with hpre | hinf
    · exact Or.inl (pref_append_cons (by simpa using hpre) hc).isInfix
    · rcases ih hinf with h1 | h2
      · exact Or.inl (List.infix_cons h1)
      · exact Or.inr h2

/-- Appending a merged line with the `"\n "` separator cannot create an
occurrence of the marker: the marker holds no newline and does not start
with a space, so any occurrence would lie wholly inside one side. -/
theorem marker_not_in_merge {a b : Str}
    (ha : ¬ markerChars <:+: a) (hb : ¬ markerChars <:+: b) :
    ¬ markerChars <:+: a ++ '\n' :: ' ' :: b := by
  intro h
  rcases inf_append_cons h (by decide) with h1 | h2
  · exact ha h1
  · rcases List.infix_cons_iff.mp h2 with hpre | hinf
    · have hm : markerChars = 'b' :: "eginning of /dev/log/".data := by decide
      rw [hm, List.cons_prefix_cons] at hpre
      exact absurd hpre.1 (by decide)
    · exact hb hinf

theorem containsMarker_false_iff {line : Str} :
    containsMarker line = false ↔ ¬ markerChars <:+: line := by
  unfold containsMarker
  exact decide_eq_false_iff_not

/-- A parsed line's text is marker-free whenever the line was. -/
theorem text_marker_free {now : PyDateTime} {l : Str} {r : RawLog}
    (hline : containsMarker l = false) (hp : parse_raw_log now l = .ok r) :
    ¬ markerChars <:+: r.text :=
  fun hinf =>
    (containsMarker_false_iff.mp hline)
      (hinf.trans (parse_raw_log_text_sfx hp).isInfix)

theorem appendToLastText_marker_free {t : Str} (ht : ¬ markerChars <:+: t) :
    ∀ {acc : List Entry}, (∀ e ∈ acc, ¬ markerChars <:+: e.text) →
    ∀ e ∈ appendToLastText acc t, ¬ markerChars <:+: e.text := by
  intro acc
  induction acc with
  | nil => intro _ e he; simp [appendToLastText] at he
  | cons x xs ih =>
    intro hacc e he
    cases xs with
    | nil =>
      simp only [appendToLastText, List.mem_singleton] at he
      subst he
      exact marker_not_in_merge (hacc x (List.mem_cons_self x [])) ht
    | cons y ys =>
      simp only [appendToLastText, List.mem_cons] at he
      rcases he with rfl | hmem
      · exact hacc e (List.mem_cons_self e (y :: ys))
      · exact ih (fun e' he' => hacc e' (List.mem_cons_of_mem x he')) e hmem

/-- Invariant of the entry loop: marker-free texts stay marker-free, both
when a new entry is appended and when a line is merged into the last one. -/
theorem parseLoop_marker_free (now : PyDateTime) :
    ∀ (rest : List Str) (old : RawLog) (acc res : List Entry),
    (∀ e ∈ acc, ¬ markerChars <:+: e.text) →
    parseLoop now rest old acc = .ok res →
    ∀ e ∈ res, ¬ markerChars <:+: e.text := by
  intro rest
  induction rest with
  | nil =>
    intro old acc res hacc h
    cases h
    exact hacc
  | cons l rest' ih =>
    intro old acc res hacc h
    simp only [parseLoop] at h
    by_cases hm : containsMarker l = true
    · rw [if_pos hm] at h
      exact ih old acc res hacc h
    · rw [if_neg hm] at h
      have hmf : containsMarker l = false := by
        cases hml : containsMarker l
        · rfl
        · exact absurd hml hm
      split at h
      · cases h
      · next cur heq =>
        have htext : ¬ markerChars <:+: cur.text := text_marker_free hmf heq
        split at h
        · refine ih cur _ res ?_ h
          intro e he
          rcases List.mem_append.mp he with h1 | h2
          · exact hacc e h1
          · rw [List.mem_singleton] at h2
            subst h2
            exact htext
        · exact ih cur _ res (appendToLastText_marker_free htext hacc) h

/-- The five header fields compared by the merge test of `parse`. -/
def headerTuple (r : RawLog) : PyDateTime × Str × Str × Str × Str :=
  (r.time, r.processId, r.threadId, r.logType, r.tag)

theorem appendToLastText_append (xs : List Entry) (e : Entry) (t : Str) :
    appendToLastText (xs ++ [e]) t =
      xs ++ [{ e with text := e.text ++ '\n' :: ' ' :: t }] := by
  induction xs with
  | nil => rfl
  | cons x xs ih =>
    cases xs with
    | nil => rfl
    | cons y ys =>
      simp only [List.cons_append, appendToLastText, List.append_eq] at ih ⊢
      rw [ih]

/-- Core merge property of the entry loop: if every remaining line parses
and agrees with `old` on all five header fields, the loop folds all their
texts into the last accumulated entry, separated by `"\n "`. -/
theorem parseLoop_all_same (now : PyDateTime) :
    ∀ (rest : List Str) (rs : List RawLog) (old : RawLog)
      (pre : List Entry) (e : Entry),
    rest.map (parse_raw_log now) = rs.map Except.ok →
    (∀ l ∈ rest, containsMarker l = false) →
    (∀ r ∈ rs, headerTuple r = headerTuple old) →
    parseLoop now rest old (pre ++ [e]) =
      .ok (pre ++ [{ e with
        text := e.text ++ (rs.map (fun r => '\n' :: ' ' :: r.text)).flatten }]) := by
  intro rest
  induction rest with
  | nil =>
    intro rs old pre e hmap hm hk
    cases rs with
    | nil => simp [parseLoop]
    | cons r rs' => simp at hmap
  | cons l rest' ih =>
    intro rs old pre e hmap hm hk
    cases rs with
    | nil => simp at hmap
    | cons r rs' =>
      simp only [List.map_cons, List.cons.injEq] at hmap
      obtain ⟨hlr, hmap'⟩ := hmap
      have hml : containsMarker l = false := hm l (List.mem_cons_self l rest')
      have hkr : headerTuple r = headerTuple old :=
        hk r (List.mem_cons_self r rs')
      obtain ⟨h1, h2, h3, h4, h5⟩ : r.time = old.time ∧ r.processId = old.processId ∧
          r.threadId = old.threadId ∧ r.logType = old.logType ∧ r.tag = old.tag := by
        simpa [headerTuple, Prod.ext_iff] using hkr
      simp only [parseLoop, hml, hlr, Bool.false_eq_true, if_false]
      rw [if_neg (by simp [h1, h2, h3, h4, h5])]
      rw [appendToLastText_append]
      rw [ih rs' r pre _ hmap'
        (fun x hx => hm x (List.mem_cons_of_mem l hx))
        (fun x hx => by rw [hk x (List.mem_cons_of_mem r hx), ← hkr])]
      simp [List.append_assoc]

/-! ### Claim theorems: LogParser -/

/-- Claim C7: `LogParser.parse` is a pure function of the raw text; of the
wall-clock `datetime.now()` it reads, only the calendar year influences the
result: two calls with the same text in the same year agree, whatever the
rest of the clock says. -/
theorem c7_parse_depends_only_on_year (now now' : PyDateTime) (msg : Str)
    (h : now.year = now'.year) :
    LogParser.parse now msg = LogParser.parse now' msg := by
  unfold LogParser.parse
  simp only [parse_raw_log_year_eq h, parseLoop_year_eq h]

/-- Claim C7 witness: two clocks in year 2026 differing in every other field
give the same parse of a concrete dump. -/
theorem c7_witness :
    (⟨2026, 5, 5, 1, 2, 3, 4⟩ : PyDateTime).year =
      (⟨2026, 1, 1, 0, 0, 0, 0⟩ : PyDateTime).year ∧
    LogParser.parse ⟨2026, 5, 5, 1, 2, 3, 4⟩ ("01-02 03:04:05.6 1 2 I t: x".data) =
      LogParser.parse ⟨2026, 1, 1, 0, 0, 0, 0⟩ ("01-02 03:04:05.6 1 2 I t: x".data) :=
  ⟨rfl, c7_parse_depends_only_on_year _ _ _ rfl⟩

/-- Claim C9: the `log_types` mapping is total on `{I, W, V, E, D, A}` with
the published values, and a line whose matched level character lies outside
that set makes `parse_raw_log` raise (either the `strptime` `ValueError` or
the `log_types` `KeyError`) instead of producing an entry. -/
theorem c9_level_mapping_total_and_rejecting :
    (log_types 'I' = some ("Info".data) ∧ log_types 'W' = some ("Warning".data) ∧
     log_types 'V' = some ("Verbose".data) ∧ log_types 'E' = some ("Error".data) ∧
     log_types 'D' = some ("Debug".data) ∧ log_types 'A' = some ("WTF".data)) ∧
    ∀ (now : PyDateTime) (line : Str) (g : ReGroups),
      reMatch line = some g → log_types g.g4 = none →
      ∃ e, parse_raw_log now line = .error e := by
  refine ⟨⟨rfl, rfl, rfl, rfl, rfl, rfl⟩, ?_⟩
  intro now line g hm hl
  cases hs : strptime (natToChars now.year ++ '-' :: pyStrip g.g1) with
  | none => exact ⟨.timeError, by simp [parse_raw_log, hm, hs]⟩
  | some t => exact ⟨.levelError, by simp [parse_raw_log, hm, hs, hl]⟩

/-- Claim C9 witness: the line `01-02 03:04:05.6 1 2 X t: x` matches the
regex with level character `X`, which is unmapped, and parsing it errors. -/
theorem c9_witness :
    reMatch ("01-02 03:04:05.6 1 2 X t: x".data) =
      some ⟨"01-02 03:04:05.6".data, "1".data, "2".data, 'X', "t".data, "x".data⟩ ∧
    log_types 'X' = none ∧
    ∃ e, parse_raw_log ⟨2026, 5, 5, 0, 0, 0, 0⟩
      ("01-02 03:04:05.6 1 2 X t: x".data) = .error e :=
  ⟨by decide, by decide,
    c9_level_mapping_total_and_rejecting.2 ⟨2026, 5, 5, 0, 0, 0, 0⟩
      ("01-02 03:04:05.6 1 2 X t: x".data)
      ⟨"01-02 03:04:05.6".data, "1".data, "2".data, 'X', "t".data, "x".data⟩
      (by decide) (by decide)⟩

/-- Claim C2 counterexample: two consecutive lines with identical header
tuples are merged, but the code appends `'\n %s' % text` — the separator is
newline-plus-space, so the merged text is `"x\n y"`, not the plain-newline
join `"x\ny"` the claim states. -/
theorem c2_counterexample :
    LogParser.parse ⟨2026, 5, 5, 0, 0, 0, 0⟩
      ("01-02 03:04:05.6 1 2 I t: x\n01-02 03:04:05.6 1 2 I t: y".data) =
      .ok ⟨"logData".data, "Android".data,
        [⟨⟨2026, 1, 2, 3, 4, 5, 600000⟩, "Info".data, "t".data, "x\n y".data⟩]⟩ ∧
    ("x\n y".data : Str) ≠ "x\ny".data := by
  exact ⟨by decide, by decide⟩

/-- Claim C2, amended: for a run of N >= 1 consecutive substantive lines
whose `(time, processId, threadId, logType, tag)` tuples are all equal,
`parse` emits exactly one entry whose text is the N line texts joined by a
newline followed by one space (the literal `'\n %s'`), in original order;
each line is compared against the immediately previous raw tuple, so runs
of three or more chain. -/
theorem c2_equal_header_run_merges (now : PyDateTime) (raw : Str)
    (first : Str) (rest : List Str) (r0 : RawLog) (rs : List RawLog)
    (hsplit : (pySplitlines raw).dropWhile containsMarker = first :: rest)
    (hmrest : ∀ l ∈ rest, containsMarker l = false)
    (h0 : parse_raw_log now first = .ok r0)
    (hps : rest.map (parse_raw_log now) = rs.map Except.ok)
    (hkey : ∀ r ∈ rs, headerTuple r = headerTuple r0) :
    LogParser.parse now raw = .ok ⟨"logData".data, "Android".data,
      [⟨r0.time, r0.logType, r0.tag,
        r0.text ++ (rs.map (fun r => '\n' :: ' ' :: r.text)).flatten⟩]⟩ := by
  unfold LogParser.parse
  rw [hsplit]
  simp only [h0]
  have hloop := parseLoop_all_same now rest rs r0 [] (parse_entries r0)
    hps hmrest hkey
  simp only [List.nil_append] at hloop
  rw [hloop]
  simp [parse_entries]

/-- Claim C2 witness: a three-line run with texts `x`, `y`, `z` and equal
headers yields the single entry `"x\n y\n z"`, exercising the chaining of a
run of three. -/
theorem c2_witness :
    (pySplitlines ("01-02 03:04:05.6 1 2 I t: x\n01-02 03:04:05.6 1 2 I t: y\n01-02 03:04:05.6 1 2 I t: z".data)).dropWhile containsMarker =
      "01-02 03:04:05.6 1 2 I t: x".data ::
        ["01-02 03:04:05.6 1 2 I t: y".data, "01-02 03:04:05.6 1 2 I t: z".data] ∧
    (∀ l ∈ ["01-02 03:04:05.6 1 2 I t: y".data, "01-02 03:04:05.6 1 2 I t: z".data],
      containsMarker l = false) ∧
    parse_raw_log ⟨2026, 5, 5, 0, 0, 0, 0⟩ ("01-02 03:04:05.6 1 2 I t: x".data) =
      .ok ⟨⟨2026, 1, 2, 3, 4, 5, 600000⟩, "1".data, "2".data, "Info".data, "t".data, "x".data⟩ ∧
    LogParser.parse ⟨2026, 5, 5, 0, 0, 0, 0⟩
      ("01-02 03:04:05.6 1 2 I t: x\n01-02 03:04:05.6 1 2 I t: y\n01-02 03:04:05.6 1 2 I t: z".data) =
      .ok ⟨"logData".data, "Android".data,
        [⟨⟨2026, 1, 2, 3, 4, 5, 600000⟩, "Info".data, "t".data, "x\n y\n z".data⟩] ⟩ := by
  refine ⟨by decide, by decide, by decide, ?_⟩
  have h := c2_equal_header_run_merges ⟨2026, 5, 5, 0, 0, 0, 0⟩
    ("01-02 03:04:05.6 1 2 I t: x\n01-02 03:04:05.6 1 2 I t: y\n01-02 03:04:05.6 1 2 I t: z".data)
    ("01-02 03:04:05.6 1 2 I t: x".data)
    ["01-02 03:04:05.6 1 2 I t: y".data, "01-02 03:04:05.6 1 2 I t: z".data]
    ⟨⟨2026, 1, 2, 3, 4, 5, 600000⟩, "1".data, "2".data, "Info".data, "t".data, "x".data⟩
    [⟨⟨2026, 1, 2, 3, 4, 5, 600000⟩, "1".data, "2".data, "Info".data, "t".data, "y".data⟩,
     ⟨⟨2026, 1, 2, 3, 4, 5, 600000⟩, "1".data, "2".data, "Info".data, "t".data, "z".data⟩]
    (by decide) (by decide) (by decide) (by decide) (by decide)
  simpa using h

theorem dropWhile_head_false {p : Str → Bool} :
    ∀ {l : List Str} {x : Str} {xs : List Str},
    l.dropWhile p = x :: xs → p x = false := by
  intro l
  induction l with
  | nil => intro x xs h; cases h
  | cons a as ih =>
    intro x xs h
    rw [List.dropWhile_cons] at h
    split at h
    · exact ih h
    · next hpa =>
      cases h
      simpa using hpa

/-- Claim C8: whenever `LogParser.parse` succeeds, no output entry's text
contains `beginning of /dev/log/`: marker lines at the front are stripped by
the `while` loop, interior marker lines are skipped by the `continue`, every
surviving entry text is a piece of a non-marker line, and the `"\n "` merge
separator cannot assemble a new occurrence of the marker. -/
theorem c8_no_marker_in_output (now : PyDateTime) (raw : Str) (res : ParseResult)
    (h : LogParser.parse now raw = .ok res) :
    ∀ e ∈ res.logEntries, ¬ markerChars <:+: e.text := by
  unfold LogParser.parse at h
  split at h
  · cases h
  · next first rest hd =>
    split at h
    · cases h
    · next r0 hp =>
      split at h
      · cases h
      · next entries hl =>
        cases h
        have hfirst : containsMarker first = false := dropWhile_head_false hd
        refine parseLoop_marker_free now rest r0 [parse_entries r0] entries ?_ hl
        intro e he
        rw [List.mem_singleton] at he
        subst he
        exact text_marker_free hfirst hp

/-- Claim C8 witness: a dump with leading and interleaved marker lines
parses successfully and no entry text contains the marker. -/
theorem c8_witness :
    LogParser.parse ⟨2026, 5, 5, 0, 0, 0, 0⟩
      ("beginning of /dev/log/main\n01-02 03:04:05.6 1 2 I t: x\nbeginning of /dev/log/system\n01-02 03:04:05.7 1 2 I t: w".data) =
      .ok ⟨"logData".data, "Android".data,
        [⟨⟨2026, 1, 2, 3, 4, 5, 600000⟩, "Info".data, "t".data, "x".data⟩,
         ⟨⟨2026, 1, 2, 3, 4, 5, 700000⟩, "Info".data, "t".data, "w".data⟩]⟩ ∧
    ∀ e ∈ (⟨"logData".data, "Android".data,
        [⟨⟨2026, 1, 2, 3, 4, 5, 600000⟩, "Info".data, "t".data, "x".data⟩,
         ⟨⟨2026, 1, 2, 3, 4, 5, 700000⟩, "Info".data, "t".data, "w".data⟩]⟩ : ParseResult).logEntries,
      ¬ markerChars <:+: e.text :=
  ⟨by decide,
    c8_no_marker_in_output ⟨2026, 5, 5, 0, 0, 0, 0⟩
      ("beginning of /dev/log/main\n01-02 03:04:05.6 1 2 I t: x\nbeginning of /dev/log/system\n01-02 03:04:05.7 1 2 I t: w".data)
      _ (by decide)⟩

/-- Claim C10: on raw log data that is empty or consists only of
`beginning of /dev/log/` marker lines, the stripping loop exhausts
`raw_data` and `raw_data[0]` raises `IndexError`; `parse` never returns an
empty entry sequence. -/
theorem c10_empty_input_index_error (now : PyDateTime) (raw : Str)
    (h : pySplitlines raw = [] ∨ ∀ l ∈ pySplitlines raw, containsMarker l = true) :
    LogParser.parse now raw = .error .indexError := by
  have hnil : (pySplitlines raw).dropWhile containsMarker = [] := by
    rcases h with h | h
    · rw [h]; rfl
    · exact List.dropWhile_eq_nil_iff.mpr (fun x hx => by rw [h x hx])
  unfold LogParser.parse
  rw [hnil]

/-- Claim C10 witness: a dump holding only marker lines raises the
`IndexError` concretely. -/
theorem c10_witness :
    (∀ l ∈ pySplitlines ("beginning of /dev/log/main\nbeginning of /dev/log/system".data),
      containsMarker l = true) ∧
    LogParser.parse ⟨2026, 5, 5, 0, 0, 0, 0⟩
      ("beginning of /dev/log/main\nbeginning of /dev/log/system".data) =
      .error .indexError :=
  ⟨by decide, c10_empty_input_index_error _ _ (Or.inr (by decide))⟩

/-! ### Claim theorems: websocket controller -/

theorem runLoop_append (env : Env) (ws : Conn) :
    ∀ (evs₁ evs₂ : List LoopEvent) (st st' : LoopState),
    runLoop env ws evs₁ st = (st', .finished) →
    runLoop env ws (evs₁ ++ evs₂) st = runLoop env ws evs₂ st' := by
  intro evs₁
  induction evs₁ with
  | nil =>
    intro evs₂ st st' h
    cases h
    rfl
  | cons ev evs ih =>
    intro evs₂ st st' h
    cases ev with
    | recvNone => exact ih evs₂ st st' h
    | recvWsErr => cases h
    | recvMsg m =>
      simp only [runLoop, List.cons_append] at h ⊢
      cases hd : dispatch env m ws st with
      | ok st'' =>
        rw [hd] at h
        exact ih evs₂ st'' st' h
      | error e =>
        rw [hd] at h
        cases h

/-- A fixed environment for concrete scenarios: the user-management policy
returns exactly the registry entry of the key. -/
def envW : Env :=
  ⟨"2026-05-05".data, fun k reg => (regFind? reg k).getD []⟩

/-- Claim C1 is what the spec intends, but the code cannot do it: with the
metadata fully populated by `startSession` and a well-formed `rawLogData`,
`log_dump` raises `TypeError` at the `LogParser.parse` call (two arguments
to the one-parameter `parse`), before anything is parsed — so nothing is
ever stored via `store_logs` and no `logData` message is ever sent. -/
theorem c1_log_dump_type_error :
    (handle_websocket envW 0
      [.recvMsg [("messageType".data, "startSession".data), ("apiKey".data, "k".data),
        ("osType".data, "Android".data), ("deviceName".data, "d".data),
        ("appName".data, "a".data)],
       .recvMsg [("messageType".data, "logDump".data),
        ("rawLogData".data, "01-02 03:04:05.6 1 2 I t: x".data)]]
      [("k".data, [7, 8])]).error = some .typeError ∧
    (handle_websocket envW 0
      [.recvMsg [("messageType".data, "startSession".data), ("apiKey".data, "k".data),
        ("osType".data, "Android".data), ("deviceName".data, "d".data),
        ("appName".data, "a".data)],
       .recvMsg [("messageType".data, "logDump".data),
        ("rawLogData".data, "01-02 03:04:05.6 1 2 I t: x".data)]]
      [("k".data, [7, 8])]).state.stored = [] ∧
    (handle_websocket envW 0
      [.recvMsg [("messageType".data, "startSession".data), ("apiKey".data, "k".data),
        ("osType".data, "Android".data), ("deviceName".data, "d".data),
        ("appName".data, "a".data)],
       .recvMsg [("messageType".data, "logDump".data),
        ("rawLogData".data, "01-02 03:04:05.6 1 2 I t: x".data)]]
      [("k".data, [7, 8])]).state.sent = [] := by
  exact ⟨by decide, by decide, by decide⟩

/-- Claim C3 counterexample: after `associateUser` registers the connection,
a `logDump` with no `rawLogData` raises a `KeyError` that the loop does not
catch; `handle_websocket` has no `finally`, so the cleanup block is skipped
and the connection is never removed from the registry. -/
theorem c3_counterexample :
    (handle_websocket envW 0
      [.recvMsg [("messageType".data, "associateUser".data), ("apiKey".data, "k".data)],
       .recvMsg [("messageType".data, "logDump".data)]] []).cleanupRan = false ∧
    (handle_websocket envW 0
      [.recvMsg [("messageType".data, "associateUser".data), ("apiKey".data, "k".data)],
       .recvMsg [("messageType".data, "logDump".data)]] []).error =
      some (.keyError ("rawLogData".data)) ∧
    (handle_websocket envW 0
      [.recvMsg [("messageType".data, "associateUser".data), ("apiKey".data, "k".data)],
       .recvMsg [("messageType".data, "logDump".data)]] []).state.registry =
      [("k".data, [0])] := by
  exact ⟨by decide, by decide, by decide⟩

/-- Claim C3, amended: the cleanup (registry removal plus compaction) runs
exactly when the receive loop exits by seeing the connection closed or by a
`WebSocketError`; an uncaught handler error propagates out of
`handle_websocket` and the cleanup does not run. -/
theorem c3_cleanup_iff_no_uncaught_error (env : Env) (ws : Conn)
    (events : List LoopEvent) (reg : Registry) :
    (handle_websocket env ws events reg).cleanupRan = true ↔
      (handle_websocket env ws events reg).error = none := by
  unfold handle_websocket
  rcases hr : runLoop env ws events (initState reg) with ⟨st, o⟩
  cases o <;> simp

/-- Claim C5 counterexample: a `deviceMetrics` message on a connection that
never started a session does not raise: the handler reads
`metadata.get('apiKey', '')`, the loop finishes cleanly and cleanup runs —
the claimed immediate error never happens. -/
theorem c5_counterexample :
    (handle_websocket envW 0
      [.recvMsg [("messageType".data, "deviceMetrics".data), ("temp".data, "40".data)]]
      [("k1".data, [5])]).error = none ∧
    (handle_websocket envW 0
      [.recvMsg [("messageType".data, "deviceMetrics".data), ("temp".data, "40".data)]]
      [("k1".data, [5])]).cleanupRan = true ∧
    (handle_websocket envW 0
      [.recvMsg [("messageType".data, "deviceMetrics".data), ("temp".data, "40".data)]]
      [("k1".data, [5])]).state.sent = [] := by
  exact ⟨by decide, by decide, by decide⟩

/-- Claim C5, amended: the fields read by direct indexing do raise an
immediate `KeyError` the router does not catch — `logDump` on a missing
`rawLogData` in the message, or, with it present, a missing `osType` in the
metadata (its later `deviceName`/`appName`/`startTime` reads are unreachable
behind the `TypeError`); `endSession` on a missing `deviceName`, `appName`
or `startTime`; and any handler error ends the receive loop at that message.
But every `apiKey` read uses `.get(..., '')`: a `deviceMetrics` message on a
connection with no session metadata is tolerated and fans out under the
empty API key. -/
theorem c5_missing_fields :
    (∀ (env : Env) (message : Dict) (st : LoopState),
      dictGet? message ("rawLogData".data) = none →
      log_dump env message st = .error (.keyError ("rawLogData".data))) ∧
    (∀ (env : Env) (message : Dict) (st : LoopState) (raw : Str),
      dictGet? message ("rawLogData".data) = some raw →
      dictGet? st.metadata ("osType".data) = none →
      log_dump env message st = .error (.keyError ("osType".data))) ∧
    (∀ (st : LoopState),
      dictGet? st.metadata ("deviceName".data) = none →
      end_session st = .error (.keyError ("deviceName".data))) ∧
    (∀ (st : LoopState) (dev : Str),
      dictGet? st.metadata ("deviceName".data) = some dev →
      dictGet? st.metadata ("appName".data) = none →
      end_session st = .error (.keyError ("appName".data))) ∧
    (∀ (st : LoopState) (dev app : Str),
      dictGet? st.metadata ("deviceName".data) = some dev →
      dictGet? st.metadata ("appName".data) = some app →
      dictGet? st.metadata ("startTime".data) = none →
      end_session st = .error (.keyError ("startTime".data))) ∧
    (∀ (env : Env) (ws : Conn) (m : Dict) (st : LoopState) (e : HErr)
      (evs : List LoopEvent),
      dispatch env m ws st = .error e →
      runLoop env ws (.recvMsg m :: evs) st = (st, .raised e)) ∧
    (∀ (env : Env) (message : Dict) (st : LoopState),
      dictGet? st.metadata ("apiKey".data) = none →
      device_metrics env message st = { st with sent := st.sent ++
        ((env.lookup [] st.registry).map
          (fun c => (c, OutMsg.verbatim message))) }) := by
  refine ⟨?_, ?_, ?_, ?_, ?_, ?_, ?_⟩
  · intro env message st hraw
    unfold log_dump
    rw [hraw]
  · intro env message st raw hraw hos
    unfold log_dump
    simp only [hraw, hos]
  · intro st hdev
    unfold end_session
    rw [hdev]
  · intro st dev hdev happ
    unfold end_session
    simp only [hdev, happ]
  · intro st dev app hdev happ hstart
    unfold end_session
    simp only [hdev, happ, hstart]
  · intro env ws m st e evs hd
    simp [runLoop, hd]
  · intro env message st h
    unfold device_metrics
    rw [dictGetD, h]
    rfl

/-- Claim C5 witness: concrete runs of every conjunct — the two reachable
`logDump` `KeyError`s, the three `endSession` `KeyError`s, the router
propagating a handler error, and `deviceMetrics` tolerating a missing
`apiKey` by fanning out under the empty key. -/
theorem c5_witness :
    log_dump envW [("messageType".data, "logDump".data)]
      (initState []) = .error (.keyError ("rawLogData".data)) ∧
    log_dump envW [("messageType".data, "logDump".data), ("rawLogData".data, "x".data)]
      (initState [("k1".data, [5])]) = .error (.keyError ("osType".data)) ∧
    end_session (initState []) = .error (.keyError ("deviceName".data)) ∧
    end_session ⟨[("deviceName".data, "d".data)], [], [], [], [], []⟩ =
      .error (.keyError ("appName".data)) ∧
    end_session ⟨[("deviceName".data, "d".data), ("appName".data, "a".data)],
      [], [], [], [], []⟩ = .error (.keyError ("startTime".data)) ∧
    runLoop envW 0 [.recvMsg [("messageType".data, "endSession".data)]]
      (initState []) =
      (initState [], .raised (.keyError ("deviceName".data))) ∧
    device_metrics envW [("messageType".data, "deviceMetrics".data)]
      (initState [("k1".data, [5])]) =
      { initState [("k1".data, [5])] with sent := [] } := by
  obtain ⟨h1, h2, h3, h4, h5, h6, h7⟩ := c5_missing_fields
  refine ⟨?_, ?_, ?_, ?_, ?_, ?_, ?_⟩
  · exact h1 envW [("messageType".data, "logDump".data)] (initState []) (by decide)
  · exact h2 envW [("messageType".data, "logDump".data), ("rawLogData".data, "x".data)]
      (initState [("k1".data, [5])]) ("x".data) (by decide) (by decide)
  · exact h3 (initState []) (by decide)
  · exact h4 ⟨[("deviceName".data, "d".data)], [], [], [], [], []⟩ ("d".data)
      (by decide) (by decide)
  · exact h5 ⟨[("deviceName".data, "d".data), ("appName".data, "a".data)],
      [], [], [], [], []⟩ ("d".data) ("a".data) (by decide) (by decide) (by decide)
  · exact h6 envW 0 [("messageType".data, "endSession".data)] (initState [])
      (.keyError ("deviceName".data)) [] (by decide)
  · exact (h7 envW [("messageType".data, "deviceMetrics".data)]
      (initState [("k1".data, [5])]) (by decide)).trans (by decide)

/-- Claim C6 counterexample: after a valid `startSession`, a `logDump` with
malformed `rawLogData` raises — but the `TypeError` of the two-argument call
to the one-parameter `LogParser.parse`, before `LogParser` ever runs, not a
parse error; the loop's `except` clause only catches `WebSocketError`, so
the connection's loop does not continue (the following message is never
processed) and cleanup is skipped: nothing is caught-and-continued. -/
theorem c6_counterexample :
    (handle_websocket envW 0
      [.recvMsg [("messageType".data, "startSession".data), ("apiKey".data, "k".data),
        ("osType".data, "Android".data), ("deviceName".data, "d".data),
        ("appName".data, "a".data)],
       .recvMsg [("messageType".data, "logDump".data), ("rawLogData".data, "garbage".data)],
       .recvMsg [("messageType".data, "deviceMetrics".data)]] []).error =
      some .typeError ∧
    (handle_websocket envW 0
      [.recvMsg [("messageType".data, "startSession".data), ("apiKey".data, "k".data),
        ("osType".data, "Android".data), ("deviceName".data, "d".data),
        ("appName".data, "a".data)],
       .recvMsg [("messageType".data, "logDump".data), ("rawLogData".data, "garbage".data)],
       .recvMsg [("messageType".data, "deviceMetrics".data)]] []).cleanupRan = false := by
  exact ⟨by decide, by decide⟩

/-- Claim C6, amended: no parse error inside `LogParser` can arise during a
`logDump` call — once `rawLogData` and `osType` are readable, the handler
raises the `TypeError` of calling the one-parameter `LogParser.parse` with
two arguments before `LogParser` runs.  The error a `logDump` does raise,
like any non-`WebSocketError` handler exception, is not caught by the
receive loop: it terminates the loop at that message, the remaining event
stream is never processed, and cleanup does not run. -/
theorem c6_logdump_error_uncaught :
    (∀ (env : Env) (message : Dict) (st : LoopState) (raw os : Str),
      dictGet? message ("rawLogData".data) = some raw →
      dictGet? st.metadata ("osType".data) = some os →
      log_dump env message st = .error .typeError) ∧
    (∀ (env : Env) (ws : Conn) (reg : Registry)
      (evs₁ evs₂ : List LoopEvent) (m : Dict) (st : LoopState) (e : HErr),
      runLoop env ws evs₁ (initState reg) = (st, .finished) →
      dispatch env m ws st = .error e →
      handle_websocket env ws (evs₁ ++ .recvMsg m :: evs₂) reg =
        ⟨st, some e, false⟩) := by
  constructor
  · intro env message st raw os hraw hos
    unfold log_dump
    simp only [hraw, hos]
  · intro env ws reg evs₁ evs₂ m st e h1 h2
    unfold handle_websocket
    rw [runLoop_append env ws evs₁ (.recvMsg m :: evs₂) _ _ h1]
    simp [runLoop, h2]

/-- Claim C6 witness: after a clean `startSession` prefix, a `logDump`
carrying `rawLogData` raises the `TypeError` (never a parse error) and
terminates `handle_websocket` there, regardless of the pending later
events. -/
theorem c6_witness :
    log_dump envW
      [("messageType".data, "logDump".data), ("rawLogData".data, "garbage".data)]
      ⟨[("messageType".data, "startSession".data), ("apiKey".data, "k".data),
        ("osType".data, "Android".data), ("deviceName".data, "d".data),
        ("appName".data, "a".data), ("startTime".data, "2026-05-05".data)],
        [], [], [], [], []⟩ = .error .typeError ∧
    runLoop envW 0
      [.recvMsg [("messageType".data, "startSession".data), ("apiKey".data, "k".data),
        ("osType".data, "Android".data), ("deviceName".data, "d".data),
        ("appName".data, "a".data)]] (initState []) =
      (⟨[("messageType".data, "startSession".data), ("apiKey".data, "k".data),
        ("osType".data, "Android".data), ("deviceName".data, "d".data),
        ("appName".data, "a".data), ("startTime".data, "2026-05-05".data)],
        [], [], [], [], []⟩, .finished) ∧
    handle_websocket envW 0
      ([.recvMsg [("messageType".data, "startSession".data), ("apiKey".data, "k".data),
        ("osType".data, "Android".data), ("deviceName".data, "d".data),
        ("appName".data, "a".data)]] ++
        .recvMsg [("messageType".data, "logDump".data), ("rawLogData".data, "garbage".data)] ::
        [.recvMsg [("messageType".data, "deviceMetrics".data)]]) [] =
      ⟨⟨[("messageType".data, "startSession".data), ("apiKey".data, "k".data),
        ("osType".data, "Android".data), ("deviceName".data, "d".data),
        ("appName".data, "a".data), ("startTime".data, "2026-05-05".data)],
        [], [], [], [], []⟩, some .typeError, false⟩ := by
  refine ⟨?_, by decide, ?_⟩
  · exact c6_logdump_error_uncaught.1 envW
      [("messageType".data, "logDump".data), ("rawLogData".data, "garbage".data)]
      ⟨[("messageType".data, "startSession".data), ("apiKey".data, "k".data),
        ("osType".data, "Android".data), ("deviceName".data, "d".data),
        ("appName".data, "a".data), ("startTime".data, "2026-05-05".data)],
        [], [], [], [], []⟩ ("garbage".data) ("Android".data)
      (by decide) (by decide)
  · exact c6_logdump_error_uncaught.2 envW 0 []
      [.recvMsg [("messageType".data, "startSession".data), ("apiKey".data, "k".data),
        ("osType".data, "Android".data), ("deviceName".data, "d".data),
        ("appName".data, "a".data)]]
      [.recvMsg [("messageType".data, "deviceMetrics".data)]]
      [("messageType".data, "logDump".data), ("rawLogData".data, "garbage".data)]
      ⟨[("messageType".data, "startSession".data), ("apiKey".data, "k".data),
        ("osType".data, "Android".data), ("deviceName".data, "d".data),
        ("appName".data, "a".data), ("startTime".data, "2026-05-05".data)],
        [], [], [], [], []⟩ .typeError (by decide) (by decide)

/-- Total number of occurrences of `ws` across all keys' collections. -/
def connCount (reg : Registry) (ws : Conn) : Nat :=
  (reg.map (fun p => p.2.count ws)).sum

theorem connCount_cons (q : Str × List Conn) (rest : Registry) (ws : Conn) :
    connCount (q :: rest) ws = q.2.count ws + connCount rest ws := by
  simp [connCount]

theorem count_le_connCount (ws : Conn) {reg : Registry} {p : Str × List Conn}
    (hp : p ∈ reg) : p.2.count ws ≤ connCount reg ws :=
  List.single_le_sum (fun x _ => Nat.zero_le x) _ (List.mem_map.mpr ⟨p, hp, rfl⟩)

theorem count_zero_no_mem {reg : Registry} {ws : Conn}
    (h : connCount reg ws = 0) : ∀ p ∈ reg, ws ∉ p.2 := by
  intro p hp hmem
  have h1 : 0 < p.2.count ws := List.count_pos_iff.mpr hmem
  have h2 := count_le_connCount ws hp
  omega

theorem regFind?_mem : ∀ {reg : Registry} {k : Str} {cs : List Conn},
    regFind? reg k = some cs → (k, cs) ∈ reg := by
  intro reg
  induction reg with
  | nil => intro k cs h; cases h
  | cons q rest ih =>
    intro k cs h
    rw [regFind?] at h
    split at h
    · next hq =>
      cases h
      exact List.mem_cons.mpr (Or.inl (by rw [← hq]))
    · exact List.mem_cons_of_mem q (ih h)

theorem memKey_true {reg : Registry} {k : Str} {ws : Conn}
    (h : memKey reg k ws = true) : ∃ cs, regFind? reg k = some cs ∧ ws ∈ cs := by
  unfold memKey at h
  split at h
  · next cs hcs => exact ⟨cs, hcs, of_decide_eq_true h⟩
  · cases h

theorem memKey_cons (q : Str × List Conn) (rest : Registry) (k : Str) (ws : Conn) :
    memKey (q :: rest) k ws =
      if q.1 = k then decide (ws ∈ q.2) else memKey rest k ws := by
  unfold memKey
  rw [regFind?]
  by_cases h : q.1 = k
  · rw [if_pos h, if_pos h]
  · rw [if_neg h, if_neg h]

theorem scanRemove_no_mem (ws : Conn) :
    ∀ (reg : Registry), connCount reg ws ≤ 1 →
    ∀ p ∈ scanRemove ws reg, ws ∉ p.2 := by
  intro reg
  induction reg with
  | nil => intro _ p hp; simp [scanRemove] at hp
  | cons q rest ih =>
    intro hc p hp
    rw [connCount_cons] at hc
    by_cases hq : ws ∈ q.2
    · rw [scanRemove, if_pos hq] at hp
      have hq1 : 0 < q.2.count ws := List.count_pos_iff.mpr hq
      rcases List.mem_cons.mp hp with rfl | hmem
      · intro hx
        have he := List.count_erase_self ws q.2
        have hx1 : 0 < (q.2.erase ws).count ws := List.count_pos_iff.mpr hx
        omega
      · exact count_zero_no_mem (by omega) p hmem
    · rw [scanRemove, if_neg hq] at hp
      rcases List.mem_cons.mp hp with rfl | hmem
      · exact hq
      · exact ih (by omega) p hmem

theorem scanRemove_id (ws : Conn) :
    ∀ (reg : Registry), (∀ p ∈ reg, ws ∉ p.2) → scanRemove ws reg = reg := by
  intro reg
  induction reg with
  | nil => intro _; rfl
  | cons q rest ih =>
    intro hno
    rw [scanRemove, if_neg (hno q (List.mem_cons_self q rest))]
    rw [ih (fun p hp => hno p (List.mem_cons_of_mem q hp))]

theorem erase_map_no_mem (ws : Conn) (key : Str) :
    ∀ (reg : Registry), connCount reg ws ≤ 1 → memKey reg key ws = true →
    ∀ p ∈ reg.map (fun p => if p.1 = key then (p.1, p.2.erase ws) else p),
      ws ∉ p.2 := by
  intro reg
  induction reg with
  | nil => intro _ _ p hp; simp at hp
  | cons q rest ih =>
    intro hc hk p hp
    rw [connCount_cons] at hc
    rw [List.map_cons] at hp
    rw [memKey_cons] at hk
    by_cases hq1 : q.1 = key
    · rw [if_pos hq1] at hk
      have hmemq : ws ∈ q.2 := of_decide_eq_true hk
      have hq2 : 0 < q.2.count ws := List.count_pos_iff.mpr hmemq
      rcases List.mem_cons.mp hp with rfl | hmem
      · rw [if_pos hq1]
        intro hx
        have he := List.count_erase_self ws q.2
        have hx1 : 0 < (q.2.erase ws).count ws := List.count_pos_iff.mpr hx
        omega
      · obtain ⟨q', hq', rfl⟩ := List.mem_map.mp hmem
        have hq'0 : ws ∉ q'.2 := count_zero_no_mem (by omega) q' hq'
        by_cases h2 : q'.1 = key
        · rw [if_pos h2]
          exact fun hx => hq'0 (List.mem_of_mem_erase hx)
        · rw [if_neg h2]
          exact hq'0
    · rw [if_neg hq1] at hk
      obtain ⟨cs, hcs, hwcs⟩ := memKey_true hk
      have h1 : 0 < cs.count ws := List.count_pos_iff.mpr hwcs
      have h2 : cs.count ws ≤ connCount rest ws :=
        count_le_connCount ws (regFind?_mem hcs)
      rcases List.mem_cons.mp hp with rfl | hmem
      · rw [if_neg hq1]
        exact List.count_eq_zero.mp (by omega)
      · exact ih (by omega) hk p hmem

theorem removePhase_no_mem (ws : Conn) (key : Str) (reg : Registry)
    (hcount : connCount reg ws ≤ 1) :
    ∀ p ∈ removePhase ws key reg, ws ∉ p.2 := by
  unfold removePhase
  by_cases hcond : (decide (key ≠ []) && memKey reg key ws) = true
  · rw [if_pos hcond]
    exact erase_map_no_mem ws key reg hcount ((Bool.and_eq_true _ _).mp hcond).2
  · rw [if_neg hcond]
    exact scanRemove_no_mem ws reg hcount

theorem removePhase_id (ws : Conn) (key : Str) (reg : Registry)
    (hno : ∀ p ∈ reg, ws ∉ p.2) : removePhase ws key reg = reg := by
  unfold removePhase
  have hmk : memKey reg key ws = false := by
    cases hb : memKey reg key ws
    · rfl
    · obtain ⟨cs, hcs, hw⟩ := memKey_true hb
      exact absurd hw (hno (key, cs) (regFind?_mem hcs))
  rw [hmk, Bool.and_false, if_neg (by simp)]
  exact scanRemove_id ws reg hno

/-- Claim C4 counterexample: a connection registered under both `k1` and
`k2` is removed only from `k1` (the fallback scan stops at the first key
found); after cleanup it is still a member of `k2`'s collection, refuting
removal from every key's collection. -/
theorem c4_counterexample :
    cleanup 0 [] [("k1".data, [0]), ("k2".data, [0])] = [("k2".data, [0])] := by
  decide

/-- Claim C4, amended: removal deletes at most one occurrence from at most
one key's collection — the metadata key's if it is known, present and holds
the connection, otherwise the first key in iteration order containing it —
then deletes every key whose collection is empty; removing an absent
connection is a no-op (given no empty collections), not an error.  Under the
code's stated assumption that a connection occurs at most once across all
collections, it is therefore gone from every collection after cleanup. -/
theorem c4_remove_under_unique_occurrence (ws : Conn) (md : Dict) (reg : Registry)
    (hcount : connCount reg ws ≤ 1)
    (hne : ∀ p ∈ reg, p.2 ≠ []) :
    (∀ p ∈ cleanup ws md reg, ws ∉ p.2 ∧ p.2 ≠ []) ∧
    ((∀ p ∈ reg, ws ∉ p.2) → cleanup ws md reg = reg) := by
  constructor
  · intro p hp
    unfold cleanup regCompact at hp
    have hmem := List.mem_filter.mp hp
    refine ⟨removePhase_no_mem ws _ reg hcount p hmem.1, ?_⟩
    have := hmem.2
    simp only [Bool.not_eq_true', List.isEmpty_iff] at this
    simpa using this
  · intro hno
    unfold cleanup
    rw [removePhase_id ws _ reg hno]
    unfold regCompact
    refine List.filter_eq_self.mpr ?_
    intro p hp
    simp only [Bool.not_eq_true', List.isEmpty_iff]
    simpa using hne p hp

/-- Claim C4 witness: connection `0` occurs once, under `k1`; cleanup with
the matching metadata key removes it, keeps `k2` intact, and the no-op
property holds for the amended statement's hypotheses. -/
theorem c4_witness :
    connCount [("k1".data, [0]), ("k2".data, [5])] 0 ≤ 1 ∧
    (∀ p ∈ [("k1".data, [0]), ("k2".data, [5])], p.2 ≠ ([] : List Conn)) ∧
    ((∀ p ∈ cleanup 0 [("apiKey".data, "k1".data)]
        [("k1".data, [0]), ("k2".data, [5])], 0 ∉ p.2 ∧ p.2 ≠ []) ∧
      ((∀ p ∈ [("k1".data, [0]), ("k2".data, [5])], 0 ∉ p.2) →
        cleanup 0 [("apiKey".data, "k1".data)] [("k1".data, [0]), ("k2".data, [5])] =
          [("k1".data, [0]), ("k2".data, [5])])) :=
  ⟨by decide, by decide,
    c4_remove_under_unique_occurrence 0 [("apiKey".data, "k1".data)]
      [("k1".data, [0]), ("k2".data, [5])] (by decide) (by decide)⟩
